import Mathlib

/-!
Verification development for the Smart Factory Angular front end
(`src/frontend/smart-factory-ng/src/app`).  The TypeScript components are
shallowly embedded as Lean functions: JavaScript `string | null` values become
`Option String`, thrown exceptions become `none`, signals become explicit
state records, and HTTP subscriptions become functions from an explicit
request outcome to the next component state.
-/

/- ------------------------------------------------------------------ -/
/- JavaScript primitives used by the sources                           -/
/- ------------------------------------------------------------------ -/

/-- Truthiness of a JS `string | null` value (`!!x` / `if (!x)` tests):
`null` and the empty string are falsy, every other string is truthy. -/
def jsTruthyStr : Option String → Bool
  | none => false
  | some s => !(s == "")

/-- JS `a || b` for `a : string | null | undefined` (falsy strings fall back
to the default). -/
def jsOrStr (a : Option String) (b : String) : String :=
  match a with
  | some s => if s == "" then b else s
  | none => b

/-- Keyed string collection update, modelling both `localStorage.setItem`
and Angular's `HttpHeaders` `setHeaders` rewrite: replace the value at an
existing key, or append the pair when the key is absent. -/
def assocSet : List (String × String) → String → String → List (String × String)
  | [], k, v => [(k, v)]
  | kv :: rest, k, v =>
    if kv.1 == k then (k, v) :: assocSet rest k v
    else kv :: assocSet rest k v

/-- Keyed lookup, modelling `localStorage.getItem` and header lookup. -/
def assocGet (l : List (String × String)) (k : String) : Option String :=
  (l.find? (fun kv => kv.1 == k)).map (fun kv => kv.2)

/- ------------------------------------------------------------------ -/
/- `atob` (forgiving-base64 decode, WHATWG)                            -/
/- ------------------------------------------------------------------ -/

/-- ASCII whitespace stripped by the forgiving-base64 decoder. -/
def isB64Ws (c : Char) : Bool :=
  c = '\t' || c = '\n' || c = '\x0c' || c = '\r' || c = ' '

/-- Index of a character in the standard base64 alphabet, `none` for a
character outside it. -/
def b64Index (c : Char) : Option Nat :=
  if 'A' ≤ c ∧ c ≤ 'Z' then some (c.toNat - 65)
  else if 'a' ≤ c ∧ c ≤ 'z' then some (c.toNat - 97 + 26)
  else if '0' ≤ c ∧ c ≤ '9' then some (c.toNat - 48 + 52)
  else if c = '+' then some 62
  else if c = '/' then some 63
  else none

/-- Strip an optional `=` or `==` suffix (at most two characters). -/
def stripB64Pad (cs : List Char) : List Char :=
  match cs.reverse with
  | '=' :: '=' :: r => r.reverse
  | '=' :: r => r.reverse
  | _ => cs

/-- Pack a list of 6-bit values into bytes: every full group of four sextets
yields three bytes, a trailing group of two or three sextets yields one or
two bytes (low bits discarded). -/
def sextetsToBytes : List Nat → List Nat
  | a :: b :: c :: d :: rest =>
    let v := ((a * 64 + b) * 64 + c) * 64 + d
    v / 65536 :: (v / 256) % 256 :: v % 256 :: sextetsToBytes rest
  | [a, b] => [(a * 64 + b) / 16]
  | [a, b, c] =>
    let v := (a * 64 + b) * 64 + c
    [v / 1024, (v / 4) % 256]
  | _ => []

/-- `window.atob`: forgiving-base64 decode to bytes. `none` models the
`InvalidCharacterError` throw (length ≡ 1 mod 4 after whitespace/padding
removal, or a character outside the alphabet). -/
def atob (s : String) : Option (List Nat) :=
  let cs := s.data.filter (fun c => !(isB64Ws c))
  let cs := if cs.length % 4 == 0 then stripB64Pad cs else cs
  if cs.length % 4 == 1 then none
  else (cs.mapM b64Index).map sextetsToBytes

/-- View a byte list as the JS latin-1 string whose char codes are those
bytes (the raw result of `atob`). -/
def latin1OfBytes (bs : List Nat) : String :=
  String.mk (bs.map Char.ofNat)

/- ------------------------------------------------------------------ -/
/- strict UTF-8 decoding                                               -/
/-                                                                     -/
/- `decodeURIComponent(escape(binary))` in the sources re-reads the    -/
/- latin-1 char codes produced by `atob` as UTF-8 bytes and throws a   -/
/- `URIError` on any ill-formed sequence; that is exactly a strict     -/
/- UTF-8 decode of the byte list, with the throw modelled as `none`.   -/
/- ------------------------------------------------------------------ -/

/-- UTF-8 continuation byte test. -/
def isCont (b : Nat) : Bool := 0x80 ≤ b && b < 0xC0

/-- Decode one UTF-8 scalar value from the front of a byte list, rejecting
overlong forms, surrogates and values above U+10FFFF. -/
def utf8Step : List Nat → Option (Nat × List Nat)
  | [] => none
  | b :: rest =>
    if b < 0x80 then some (b, rest)
    else if b < 0xC2 then none
    else if b < 0xE0 then
      match rest with
      | b2 :: r =>
        if isCont b2 then some ((b - 0xC0) * 0x40 + (b2 - 0x80), r) else none
      | [] => none
    else if b < 0xF0 then
      match rest with
      | b2 :: b3 :: r =>
        if isCont b2 && isCont b3
            && (!(b == 0xE0) || decide (0xA0 ≤ b2))
            && (!(b == 0xED) || decide (b2 < 0xA0)) then
          some (((b - 0xE0) * 0x40 + (b2 - 0x80)) * 0x40 + (b3 - 0x80), r)
        else none
      | _ => none
    else if b < 0xF5 then
      match rest with
      | b2 :: b3 :: b4 :: r =>
        if isCont b2 && isCont b3 && isCont b4
            && (!(b == 0xF0) || decide (0x90 ≤ b2))
            && (!(b == 0xF4) || decide (b2 < 0x90)) then
          some ((((b - 0xF0) * 0x40 + (b2 - 0x80)) * 0x40 + (b3 - 0x80)) * 0x40
                  + (b4 - 0x80), r)
        else none
      | _ => none
    else none

/-- Fuel-driven UTF-8 decoding loop; `utf8Step` consumes at least one byte,
so fuel equal to the list length always suffices. -/
def utf8Go : Nat → List Nat → Option (List Char)
  | _, [] => some []
  | 0, _ => none
  | f + 1, l =>
    match utf8Step l with
    | none => none
    | some (cp, rest) => (utf8Go f rest).map (fun cs => Char.ofNat cp :: cs)

/-- Strict UTF-8 decode of a byte list; `none` models the `URIError` thrown
by `decodeURIComponent` on an ill-formed sequence. -/
def utf8Decode (bytes : List Nat) : Option String :=
  (utf8Go bytes.length bytes).map String.mk

/- ------------------------------------------------------------------ -/
/- `JSON.parse`                                                        -/
/- ------------------------------------------------------------------ -/

/-- JSON values as produced by `JSON.parse`.  JSON numerals denote IEEE
doubles in JS; no claim in this development depends on the numeric value,
so a numeral keeps its source lexeme. -/
inductive Json where
  | null
  | jbool (b : Bool)
  | jnum (lexeme : String)
  | jstr (s : String)
  | jarr (elems : List Json)
  | jobj (fields : List (String × Json))

/-- JSON insignificant whitespace. -/
def jsonWsChar (c : Char) : Bool :=
  c = ' ' || c = '\t' || c = '\n' || c = '\r'

/-- Drop leading JSON whitespace. -/
def skipWs (l : List Char) : List Char := l.dropWhile jsonWsChar

/-- Value of a hexadecimal digit. -/
def hexDigit (c : Char) : Option Nat :=
  if '0' ≤ c ∧ c ≤ '9' then some (c.toNat - 48)
  else if 'a' ≤ c ∧ c ≤ 'f' then some (c.toNat - 87)
  else if 'A' ≤ c ∧ c ≤ 'F' then some (c.toNat - 55)
  else none

/-- Read exactly four hex digits. -/
def parseHex4 : List Char → Option (Nat × List Char)
  | a :: b :: c :: d :: r =>
    match hexDigit a, hexDigit b, hexDigit c, hexDigit d with
    | some x, some y, some z, some w =>
      some (((x * 16 + y) * 16 + z) * 16 + w, r)
    | _, _, _, _ => none
  | _ => none

/-- Body of a JSON string after the opening quote: returns the decoded
characters and the input past the closing quote.  Surrogate pairs in
`\uXXXX` escapes are combined; a lone surrogate (legal in a JS string but
not representable as a Lean `Char`) becomes U+FFFD. -/
def stringBodyGo : Nat → List Char → Option (List Char × List Char)
  | 0, _ => none
  | f + 1, l =>
    match l with
    | [] => none
    | '"' :: r => some ([], r)
    | '\\' :: r =>
      match r with
      | [] => none
      | e :: r2 =>
        let simpleEsc : Option Char :=
          if e = '"' then some '"'
          else if e = '\\' then some '\\'
          else if e = '/' then some '/'
          else if e = 'b' then some (Char.ofNat 8)
          else if e = 'f' then some (Char.ofNat 12)
          else if e = 'n' then some '\n'
          else if e = 'r' then some '\r'
          else if e = 't' then some '\t'
          else none
        match simpleEsc with
        | some c => (stringBodyGo f r2).map (fun p => (c :: p.1, p.2))
        | none =>
          if e = 'u' then
            match parseHex4 r2 with
            | none => none
            | some (n, r3) =>
              if 0xD800 ≤ n ∧ n ≤ 0xDBFF then
                match r3 with
                | '\\' :: 'u' :: r4 =>
                  match parseHex4 r4 with
                  | some (n2, r5) =>
                    if 0xDC00 ≤ n2 ∧ n2 ≤ 0xDFFF then
                      let cp := 0x10000 + (n - 0xD800) * 0x400 + (n2 - 0xDC00)
                      (stringBodyGo f r5).map (fun p => (Char.ofNat cp :: p.1, p.2))
                    else
                      (stringBodyGo f ('\\' :: 'u' :: r4)).map
                        (fun p => (Char.ofNat 0xFFFD :: p.1, p.2))
                  | none => none
                | _ =>
                  (stringBodyGo f r3).map (fun p => (Char.ofNat 0xFFFD :: p.1, p.2))
              else if 0xDC00 ≤ n ∧ n ≤ 0xDFFF then
                (stringBodyGo f r3).map (fun p => (Char.ofNat 0xFFFD :: p.1, p.2))
              else
                (stringBodyGo f r3).map (fun p => (Char.ofNat n :: p.1, p.2))
          else none
    | c :: r =>
      if c.toNat < 0x20 then none
      else (stringBodyGo f r).map (fun p => (c :: p.1, p.2))

/-- Longest digit run at the front of the input. -/
def spanDigits (l : List Char) : List Char × List Char :=
  l.span Char.isDigit

/-- Optional exponent part of a JSON number, appended to the lexeme. -/
def parseExpPart (acc : List Char) (l : List Char) : Option (List Char × List Char) :=
  match l with
  | e :: r =>
    if e = 'e' ∨ e = 'E' then
      let sr : List Char × List Char :=
        match r with
        | '+' :: rr => (['+'], rr)
        | '-' :: rr => (['-'], rr)
        | _ => ([], r)
      match sr.2 with
      | d :: _ =>
        if d.isDigit then
          let dsr := spanDigits sr.2
          some (acc ++ [e] ++ sr.1 ++ dsr.1, dsr.2)
        else none
      | [] => none
    else some (acc, l)
  | [] => some (acc, l)

/-- Optional fraction part of a JSON number, then the exponent part. -/
def parseFracPart (acc : List Char) (l : List Char) : Option (List Char × List Char) :=
  match l with
  | '.' :: r =>
    match r with
    | d :: _ =>
      if d.isDigit then
        let dsr := spanDigits r
        parseExpPart (acc ++ ['.'] ++ dsr.1) dsr.2
      else none
    | [] => none
  | _ => parseExpPart acc l

/-- JSON number: optional minus, `0` or a nonzero-led digit run, optional
fraction and exponent.  Returns the lexeme and the rest of the input. -/
def parseNumberLex (l : List Char) : Option (List Char × List Char) :=
  let sl : List Char × List Char :=
    match l with
    | '-' :: r => (['-'], r)
    | _ => ([], l)
  match sl.2 with
  | [] => none
  | c :: r =>
    if c = '0' then parseFracPart (sl.1 ++ ['0']) r
    else if c.isDigit then
      let dsr := spanDigits (c :: r)
      parseFracPart (sl.1 ++ dsr.1) dsr.2
    else none

mutual

/-- Fuel-driven recursive-descent parser for a JSON value. -/
def parseJsonValue : Nat → List Char → Option (Json × List Char)
  | 0, _ => none
  | f + 1, l =>
    match skipWs l with
    | 'n' :: 'u' :: 'l' :: 'l' :: r => some (Json.null, r)
    | 't' :: 'r' :: 'u' :: 'e' :: r => some (Json.jbool true, r)
    | 'f' :: 'a' :: 'l' :: 's' :: 'e' :: r => some (Json.jbool false, r)
    | '"' :: r =>
      (stringBodyGo (r.length + 1) r).map
        (fun p => (Json.jstr (String.mk p.1), p.2))
    | '\x7b' :: r =>
      match skipWs r with
      | '\x7d' :: r2 => some (Json.jobj [], r2)
      | _ => (parseMembers f (skipWs r)).map (fun p => (Json.jobj p.1, p.2))
    | '[' :: r =>
      match skipWs r with
      | ']' :: r2 => some (Json.jarr [], r2)
      | _ => (parseElems f (skipWs r)).map (fun p => (Json.jarr p.1, p.2))
    | l2 => (parseNumberLex l2).map (fun p => (Json.jnum (String.mk p.1), p.2))

/-- Comma-separated JSON array elements up to the closing bracket. -/
def parseElems : Nat → List Char → Option (List Json × List Char)
  | 0, _ => none
  | f + 1, l =>
    match parseJsonValue f l with
    | none => none
    | some (v, r) =>
      match skipWs r with
      | ',' :: r2 => (parseElems f r2).map (fun p => (v :: p.1, p.2))
      | ']' :: r2 => some ([v], r2)
      | _ => none

/-- Comma-separated JSON object members up to the closing brace; the input
is positioned at the (already whitespace-skipped) key quote. -/
def parseMembers : Nat → List Char → Option (List (String × Json) × List Char)
  | 0, _ => none
  | f + 1, l =>
    match l with
    | '"' :: r =>
      match stringBodyGo (r.length + 1) r with
      | none => none
      | some (key, r2) =>
        match skipWs r2 with
        | ':' :: r3 =>
          match parseJsonValue f r3 with
          | none => none
          | some (v, r4) =>
            match skipWs r4 with
            | ',' :: r5 =>
              (parseMembers f (skipWs r5)).map
                (fun p => ((String.mk key, v) :: p.1, p.2))
            | '\x7d' :: r5 => some ([(String.mk key, v)], r5)
            | _ => none
        | _ => none
    | _ => none

end

/-- `JSON.parse`: parse a complete JSON text (trailing whitespace allowed);
`none` models the `SyntaxError` throw.  Every fuel tick of the mutual
parser consumes input, so `2·length + 4` fuel never runs out first. -/
def jsonParse (s : String) : Option Json :=
  match parseJsonValue (2 * s.length + 4) s.data with
  | none => none
  | some (v, r) => if (skipWs r).isEmpty then some v else none

/-- Field lookup on a parsed JSON object; with duplicate keys the later one
wins, as in a JS object literal built by `JSON.parse`. -/
def objGet (kvs : List (String × Json)) (k : String) : Option Json :=
  (kvs.reverse.find? (fun kv => kv.1 == k)).map (fun kv => kv.2)

/- ------------------------------------------------------------------ -/
/- JWT decoding (`services/auth.service.ts` and `services/api.ts`)     -/
/- ------------------------------------------------------------------ -/

/-- Split on a single-character separator, as JS `string.split` does:
`""` yields `[""]`, a trailing separator yields a trailing `""`. -/
def splitOnCharAux (sep : Char) : List Char → List Char → List String
  | [], acc => [String.mk acc.reverse]
  | c :: rest, acc =>
    if c = sep then String.mk acc.reverse :: splitOnCharAux sep rest []
    else splitOnCharAux sep rest (c :: acc)

/-- JS `s.split(sep)` for a one-character separator. -/
def jsSplit (s : String) (sep : Char) : List String :=
  splitOnCharAux sep s.data []

/-- The two global `replace` calls turning the base64url alphabet into the
standard base64 alphabet: every dash becomes `+` and every underscore `/`. -/
def base64urlToStd (s : String) : String :=
  String.mk (s.data.map (fun c => if c = '-' then '+' else if c = '_' then '/' else c))

/-- `decodeJwt` from `services/auth.service.ts` (lines 5–14): take the
second dot-separated part of the token, `atob` it after the alphabet swap,
re-read the result as UTF-8 (`decodeURIComponent(escape(json))`) and
`JSON.parse` it.  Every throw inside the `try` — missing payload part,
invalid base64, ill-formed UTF-8, invalid JSON — is caught and yields
`null`, modelled as `none`. -/
def decodeJwt (token : Option String) : Option Json :=
  match token with
  | none => none
  | some t =>
    if t == "" then none
    else
      match (jsSplit t '.').get? 1 with
      | none => none
      | some base =>
        match atob (base64urlToStd base) with
        | none => none
        | some bytes =>
          match utf8Decode bytes with
          | none => none
          | some json => jsonParse json

/-- `base64UrlDecode` from `services/api.ts` (lines 493–511): pad to a
multiple of four, swap the alphabet, `atob`; then try the UTF-8 re-read and
fall back to the raw latin-1 string when it fails.  `none` models the
`atob` throw propagating to the caller. -/
def base64UrlDecode (input : String) : Option String :=
  let pad := String.mk (List.replicate ((4 - input.length % 4) % 4) '=')
  let base64 := base64urlToStd (input ++ pad)
  (atob base64).map (fun bytes => (utf8Decode bytes).getD (latin1OfBytes bytes))

/-- `decodeJwt` from `services/api.ts` (lines 513–525): explicit emptiness
check on the payload part, then `base64UrlDecode` and `JSON.parse`, with
every throw caught as `null`. -/
def decodeJwtApi (token : Option String) : Option Json :=
  match token with
  | none => none
  | some t =>
    if t == "" then none
    else
      match (jsSplit t '.').get? 1 with
      | none => none
      | some payloadPart =>
        if payloadPart == "" then none
        else
          match base64UrlDecode payloadPart with
          | none => none
          | some json => jsonParse json

/-- `this.payload()?.role ?? null`: `null` when the payload is `null`, not
an object, lacks the field, or holds JSON `null` there; otherwise the field
value.  The JS `null`/`undefined` results are both modelled as `none`. -/
def jsRole : Option Json → Option Json
  | some (Json.jobj kvs) =>
    match objGet kvs "role" with
    | some Json.null => none
    | some v => some v
    | none => none
  | _ => none

/-- State of `AuthService`: the browser's `localStorage` contents and the
`_token` signal. -/
structure AuthState where
  store : List (String × String)
  _token : Option String

/-- Service construction: `signal(localStorage.getItem('token'))`. -/
def AuthService.init (store : List (String × String)) : AuthState :=
  ⟨store, assocGet store "token"⟩

/-- `token()` accessor. -/
def AuthService.token (st : AuthState) : Option String := st._token

/-- `payload = computed(() => decodeJwt(this._token()))`. -/
def AuthService.payload (st : AuthState) : Option Json := decodeJwt st._token

/-- `isLoggedIn = computed(() => !!this._token())`. -/
def AuthService.isLoggedIn (st : AuthState) : Bool := jsTruthyStr st._token

/-- `role = computed(() => this.payload()?.role ?? null)`. -/
def AuthService.role (st : AuthState) : Option Json :=
  jsRole (AuthService.payload st)

/-- `login`: `localStorage.setItem('token', accessToken)` then
`this._token.set(accessToken)`. -/
def AuthService.login (st : AuthState) (accessToken : String) : AuthState :=
  ⟨assocSet st.store "token" accessToken, some accessToken⟩

/-- `logout`: `localStorage.removeItem('token')` then
`this._token.set(null)`. -/
def AuthService.logout (st : AuthState) : AuthState :=
  ⟨st.store.filter (fun kv => !(kv.1 == "token")), none⟩

/-- The duplicate `AuthService` inside `services/api.ts` differs only in
its decoder: `payload = computed(() => decodeJwt(this._token()))` with the
padding/fallback decoder. -/
def ApiAuthService.payload (st : AuthState) : Option Json :=
  decodeJwtApi st._token

/-- `isLoggedIn = computed(() => !!this._token())` (`services/api.ts`). -/
def ApiAuthService.isLoggedIn (st : AuthState) : Bool := jsTruthyStr st._token

/-- `role = computed(() => this.payload()?.role ?? null)`
(`services/api.ts`). -/
def ApiAuthService.role (st : AuthState) : Option Json :=
  jsRole (ApiAuthService.payload st)

/- ------------------------------------------------------------------ -/
/- `services/auth.interceptor.ts`                                      -/
/- ------------------------------------------------------------------ -/

/-- An outgoing HTTP request as the interceptor sees it. -/
structure HttpRequest where
  url : String
  method : String
  body : Option String
  headers : List (String × String)

/-- `authInterceptor`: forward the request untouched when the token is
falsy, otherwise forward a clone whose only change is the
`Authorization: Bearer <token>` header set via `setHeaders`. -/
def authInterceptor (token : Option String) (req : HttpRequest) : HttpRequest :=
  match token with
  | none => req
  | some t =>
    if t == "" then req
    else { req with headers := assocSet req.headers "Authorization" ("Bearer " ++ t) }

/- ------------------------------------------------------------------ -/
/- `pages/machines/machines.ts`                                        -/
/- ------------------------------------------------------------------ -/

/-- Machine status (`'running' | 'stopped' | 'setup'`). -/
inductive MachineStatus where
  | running
  | stopped
  | setup
deriving DecidableEq

/-- The `Machine` record from `services/api.ts`. -/
structure Machine where
  id : Nat
  name : String
  code : String
  status : MachineStatus
  target_rate_per_hour : Int
deriving DecidableEq

/-- The `_filter` signal value (`'all' | 'running' | 'stopped' | 'setup'`). -/
inductive StatusFilter where
  | all
  | running
  | stopped
  | setup
deriving DecidableEq

/-- The string comparison `m.status === f` across the two literal-union
types: it holds exactly when the filter names the machine's status. -/
def statusMatches (f : StatusFilter) (s : MachineStatus) : Bool :=
  match f, s with
  | .running, .running => true
  | .stopped, .stopped => true
  | .setup, .setup => true
  | _, _ => false

/-- The status filter naming a given status. -/
def filterOfStatus : MachineStatus → StatusFilter
  | .running => .running
  | .stopped => .stopped
  | .setup => .setup

/-- `filtered` computed (machines.ts lines 43–48): `'all'` returns the raw
list, otherwise `list.filter(m => m.status === f)`. -/
def MachinesComponent.filtered (f : StatusFilter) (list : List Machine) : List Machine :=
  if f = StatusFilter.all then list
  else list.filter (fun m => statusMatches f m.status)

/-- The `MachineDraft` creation form. -/
structure MachineDraft where
  name : String
  code : String
  status : MachineStatus
  target_rate_per_hour : Int
deriving DecidableEq

/-- Outcome of a submit handler: either it returns early with an error
message and performs no HTTP request, or it issues the request with the
given payload. -/
inductive SubmitAction (α : Type) where
  | blocked (msg : String)
  | request (payload : α)
deriving DecidableEq

/-- Whether the handler returned early without a request. -/
def SubmitAction.isBlocked {α : Type} : SubmitAction α → Bool
  | .blocked _ => true
  | .request _ => false

/-- `MachinesComponent.create` (machines.ts lines 98–112): early return
with an error when not logged in or when `name`/`code` is empty (JS
falsiness of the strings); otherwise `createMachine(form)` is issued. -/
def MachinesComponent.create (loggedIn : Bool) (form : MachineDraft) :
    SubmitAction MachineDraft :=
  if !loggedIn then .blocked "Connecte-toi pour créer."
  else if form.name == "" || form.code == "" then .blocked "Nom et code sont requis."
  else .request form

/- ------------------------------------------------------------------ -/
/- `pages/events/new.ts` (EventNewComponent, in login.ts source file)  -/
/- ------------------------------------------------------------------ -/

/-- `'good' | 'scrap' | 'stop'`. -/
inductive EventType where
  | good
  | scrap
  | stop
deriving DecidableEq

/-- The loose form model of the event-creation page (nullable fields). -/
structure EventDraft where
  machine_id : Option Int
  work_order_id : Option Int
  event_type : EventType
  qty : Int
  notes : Option String
  happened_at : Option String
deriving DecidableEq

/-- The `EventCreate` payload sent to `POST /events`. -/
structure EventCreate where
  machine_id : Int
  work_order_id : Option Int
  event_type : EventType
  qty : Int
  notes : Option String
  happened_at : Option String
deriving DecidableEq

/-- `EventNewComponent.submit` (lines 105–135): early return with an error
when `machine_id == null`, otherwise build the `EventCreate` payload (the
`?? null` normalisations are identity on the `Option` model) and issue
`createEvent`. -/
def EventNewComponent.submit (p : EventDraft) : SubmitAction EventCreate :=
  match p.machine_id with
  | none => .blocked "Sélectionne une machine."
  | some mid =>
    .request
      { machine_id := mid
        work_order_id := p.work_order_id
        event_type := p.event_type
        qty := p.qty
        notes := p.notes
        happened_at := p.happened_at }

/- ------------------------------------------------------------------ -/
/- `pages/admin/admin.ts`                                              -/
/- ------------------------------------------------------------------ -/

/-- `'admin' | 'chef' | 'operator'`. -/
inductive Role where
  | admin
  | chef
  | operator
deriving DecidableEq

/-- Payload of `createUser`. -/
structure UserCreate where
  email : String
  password : String
  role : Role
deriving DecidableEq

/-- `AdminComponent.add` (admin.ts lines 24–29): the handler calls
`createUser({email, password, role})` directly — there is no required-field
check and no early return. -/
def AdminComponent.add (email password : String) (role : Role) :
    SubmitAction UserCreate :=
  .request ⟨email, password, role⟩

/- ------------------------------------------------------------------ -/
/- `pages/activity/activity.ts`                                        -/
/- ------------------------------------------------------------------ -/

/-- `PeriodKey` (`'1h' | '24h' | '7d' | '30d' | '1y'`); the constructor
names move the leading digit behind the letter to form identifiers. -/
inductive PeriodKey where
  | h1
  | h24
  | d7
  | d30
  | y1
deriving DecidableEq

/-- An entry of the `periods` table. -/
structure PeriodDef where
  key : PeriodKey
  label : String
  minutes : Nat
deriving DecidableEq

/-- The `periods` table (activity.ts lines 32–38). -/
def periods : List PeriodDef :=
  [ ⟨.h1, "Dernière heure", 60⟩,
    ⟨.h24, "24 heures", 24 * 60⟩,
    ⟨.d7, "7 jours", 7 * 24 * 60⟩,
    ⟨.d30, "30 jours", 30 * 24 * 60⟩,
    ⟨.y1, "1 an", 365 * 24 * 60⟩ ]

/-- The `minutes` computed: look the selected period up in `periods` and
fall back to 60 (the fallback is unreachable since the table is total). -/
def minutesOf (sel : PeriodKey) : Nat :=
  ((periods.find? (fun p => p.key == sel)).map PeriodDef.minutes).getD 60

/-- `let minutes = Math.max(1, this.minutes())` at the top of `refresh`. -/
def refreshMinutes (sel : PeriodKey) : Nat :=
  max 1 (minutesOf sel)

/-- The `fallbacks` array built in `refresh` (activity.ts lines 102–105):
the sanitised window first, then each standard window the three
independent `if` pushes add when the window exceeds it. -/
def fallbacks (minutes : Nat) : List Nat :=
  [minutes]
    ++ (if minutes > 43200 then [43200] else [])
    ++ (if minutes > 10080 then [10080] else [])
    ++ (if minutes > 1440 then [1440] else [])

/-- Observable outcome of the `tryNext` cascade: the windows attempted in
order, the window of the succeeding request if any, whether `setError` ran,
and the final value of the `loading` signal. -/
structure CascadeResult where
  attempts : List Nat
  success : Option Nat
  errorSet : Bool
  loading : Bool
deriving DecidableEq

/-- The `tryNext` retry loop (activity.ts lines 107–125) over the remaining
fallback windows, with the network abstracted as an oracle `ok` telling
which windows succeed.  A success stores the data and stops; a failure
retries when `idx + 1 < fallbacks.length` and otherwise runs `setError`;
walking past the end just clears `loading`. -/
def tryCascade (ok : Nat → Bool) : List Nat → CascadeResult
  | [] => ⟨[], none, false, false⟩
  | m :: rest =>
    if ok m then ⟨[m], some m, false, false⟩
    else if rest.isEmpty then ⟨[m], none, true, false⟩
    else
      let r := tryCascade ok rest
      ⟨m :: r.attempts, r.success, r.errorSet, r.loading⟩

/-- `refresh` for a selected period: sanitise the window and run the
cascade over the fallbacks list (`tryNext(0)`). -/
def refreshCascade (sel : PeriodKey) (ok : Nat → Bool) : CascadeResult :=
  tryCascade ok (fallbacks (refreshMinutes sel))

/-- A JS `number` as the `selectedMachineId` coercion sees it: `NaN`,
either infinity, or a finite value (always integral here, since the signal
only ever holds `0` or a `parseInt` result). -/
inductive JsNum where
  | nan
  | posInf
  | negInf
  | fin (q : Int)
deriving DecidableEq

/-- `Number.isFinite`. -/
def jsIsFinite : JsNum → Bool
  | .fin _ => true
  | _ => false

/-- The JS comparison `mid < 0` (false on `NaN`). -/
def jsNegative : JsNum → Bool
  | .fin q => decide (q < 0)
  | .negInf => true
  | _ => false

/-- `let mid = Number(this.selectedMachineId()); if (!Number.isFinite(mid)
|| mid < 0) mid = 0;` (activity.ts lines 98–99). -/
def sanitizeMid (j : JsNum) : Int :=
  if !(jsIsFinite j) || jsNegative j then 0
  else match j with
    | .fin q => q
    | _ => 0

/-- The request `callApi` issues. -/
inductive ApiCall where
  | recent (minutes : Nat) (limit : Nat)
  | machineActivity (machineId : Int) (minutes : Nat) (limit : Nat)
deriving DecidableEq

/-- `callApi` (activity.ts lines 86–90): `mid === 0` routes to
`getRecentActivities(minutes, 100)`, anything else to
`getMachineActivity(mid, minutes, 100)`. -/
def callApi (mid : Int) (minutes : Nat) : ApiCall :=
  if mid == 0 then .recent minutes 100
  else .machineActivity mid minutes 100

/- ------------------------------------------------------------------ -/
/- request handlers (`pages/dashboard/dashboard.ts`,                   -/
/- `pages/machines/machines.ts` refresh)                               -/
/- ------------------------------------------------------------------ -/

/-- The structured error body (`err.error`) of a failed HTTP call. -/
structure ErrBody where
  detail : Option String
deriving DecidableEq

/-- A failed HTTP call as the handlers see it (`err?.error?.detail`
optional chain). -/
structure HttpErr where
  error : Option ErrBody
deriving DecidableEq

/-- The local UI state every request handler manages: stored payload,
user-facing error message, loading flag. -/
structure ReqState (α : Type) where
  data : Option α
  error : Option String
  loading : Bool
deriving DecidableEq

/-- `Dashboard.refresh` (dashboard.ts lines 33–49): set `loading`, clear
`error`, then on success store the summary, on failure store
`err?.error?.detail || 'Erreur lors du chargement du dashboard'`; both arms
end with `loading = false`. -/
def dashboardRefresh {α : Type} (st : ReqState α) (resp : Except HttpErr α) :
    ReqState α :=
  let st1 : ReqState α := { st with loading := true, error := none }
  match resp with
  | .ok res => { st1 with data := some res, loading := false }
  | .error err =>
    { st1 with
        error := some (jsOrStr (err.error.bind ErrBody.detail)
          "Erreur lors du chargement du dashboard")
        loading := false }

/-- `MachinesComponent.refresh` (machines.ts lines 61–67): set `loading`,
clear `error`, then on success store `data ?? []`, on failure store the
fixed message `'Erreur chargement machines'` (the error body is ignored);
both arms end with `loading = false`. -/
def machinesRefresh (st : ReqState (List Machine))
    (resp : Except HttpErr (Option (List Machine))) : ReqState (List Machine) :=
  let st1 : ReqState (List Machine) := { st with loading := true, error := none }
  match resp with
  | .ok d => { st1 with data := some (d.getD []), loading := false }
  | .error _ =>
    { st1 with error := some "Erreur chargement machines", loading := false }


/- ------------------------------------------------------------------ -/
/- Supporting lemmas about the retry cascade                           -/
/- ------------------------------------------------------------------ -/

theorem tryCascade_cons_ok (ok : Nat → Bool) (a : Nat) (rest : List Nat)
    (hok : ok a = true) :
    tryCascade ok (a :: rest) = ⟨[a], some a, false, false⟩ := by
  simp [tryCascade, hok]

theorem tryCascade_single_fail (ok : Nat → Bool) (a : Nat) (hok : ok a = false) :
    tryCascade ok [a] = ⟨[a], none, true, false⟩ := by
  simp [tryCascade, hok]

theorem tryCascade_cons_fail (ok : Nat → Bool) (a r : Nat) (rs : List Nat)
    (hok : ok a = false) :
    tryCascade ok (a :: r :: rs) =
      ⟨a :: (tryCascade ok (r :: rs)).attempts, (tryCascade ok (r :: rs)).success,
        (tryCascade ok (r :: rs)).errorSet, (tryCascade ok (r :: rs)).loading⟩ := by
  simp [tryCascade, hok]

theorem tryCascade_loading (ok : Nat → Bool) (l : List Nat) :
    (tryCascade ok l).loading = false := by
  induction l with
  | nil => rfl
  | cons m rest ih =>
    cases hok : ok m with
    | true => rw [tryCascade_cons_ok ok m rest hok]
    | false =>
      cases rest with
      | nil => rw [tryCascade_single_fail ok m hok]
      | cons r rs => rw [tryCascade_cons_fail ok m r rs hok]; exact ih

theorem tryCascade_attempts_take (ok : Nat → Bool) (l : List Nat) :
    (tryCascade ok l).attempts = l.take (tryCascade ok l).attempts.length := by
  induction l with
  | nil => rfl
  | cons m rest ih =>
    cases hok : ok m with
    | true => rw [tryCascade_cons_ok ok m rest hok]; rfl
    | false =>
      cases rest with
      | nil => rw [tryCascade_single_fail ok m hok]; rfl
      | cons r rs =>
        rw [tryCascade_cons_fail ok m r rs hok]
        simpa [List.take_succ_cons] using ih

theorem tryCascade_success_spec (ok : Nat → Bool) (l : List Nat) :
    ∀ m, (tryCascade ok l).success = some m →
      ok m = true ∧ (tryCascade ok l).attempts.getLast? = some m ∧
      ∀ w ∈ (tryCascade ok l).attempts.dropLast, ok w = false := by
  induction l with
  | nil => intro m h; simp [tryCascade] at h
  | cons a rest ih =>
    intro m h
    cases hok : ok a with
    | true =>
      rw [tryCascade_cons_ok ok a rest hok] at h ⊢
      obtain rfl : a = m := by simpa using h
      simp [hok]
    | false =>
      cases rest with
      | nil => rw [tryCascade_single_fail ok a hok] at h; simp at h
      | cons r rs =>
        rw [tryCascade_cons_fail ok a r rs hok] at h ⊢
        obtain ⟨h1, h2, h3⟩ := ih m h
        obtain ⟨x, xs, hA⟩ : ∃ x xs, (tryCascade ok (r :: rs)).attempts = x :: xs := by
          cases hA : (tryCascade ok (r :: rs)).attempts with
          | nil => rw [hA] at h2; simp at h2
          | cons x xs => exact ⟨x, xs, rfl⟩
        rw [hA] at h2 h3 ⊢
        refine ⟨h1, by simpa using h2, ?_⟩
        intro w hw
        rcases (by simpa using hw : w = a ∨ w ∈ (x :: xs).dropLast) with hw' | hw'
        · exact hw' ▸ hok
        · exact h3 w hw'

theorem tryCascade_none_spec (ok : Nat → Bool) (l : List Nat) :
    (tryCascade ok l).success = none →
      (tryCascade ok l).attempts = l ∧ ∀ w ∈ l, ok w = false := by
  induction l with
  | nil => intro _; exact ⟨rfl, by simp⟩
  | cons a rest ih =>
    intro h
    cases hok : ok a with
    | true => rw [tryCascade_cons_ok ok a rest hok] at h; simp at h
    | false =>
      cases rest with
      | nil =>
        rw [tryCascade_single_fail ok a hok]
        refine ⟨rfl, ?_⟩
        intro w hw
        obtain rfl : w = a := by simpa using hw
        exact hok
      | cons r rs =>
        rw [tryCascade_cons_fail ok a r rs hok] at h ⊢
        obtain ⟨h1, h2⟩ := ih h
        refine ⟨by rw [h1], ?_⟩
        intro w hw
        rcases (by simpa using hw : w = a ∨ w ∈ r :: rs) with hw' | hw'
        · exact hw' ▸ hok
        · exact h2 w hw'

theorem tryCascade_errorSet_iff (ok : Nat → Bool) (l : List Nat) :
    (tryCascade ok l).errorSet = true ↔ (l ≠ [] ∧ ∀ w ∈ l, ok w = false) := by
  induction l with
  | nil => simp [tryCascade]
  | cons a rest ih =>
    cases hok : ok a with
    | true => rw [tryCascade_cons_ok ok a rest hok]; simp [hok]
    | false =>
      cases rest with
      | nil => rw [tryCascade_single_fail ok a hok]; simp [hok]
      | cons r rs =>
        rw [tryCascade_cons_fail ok a r rs hok]
        rw [show (⟨a :: (tryCascade ok (r :: rs)).attempts, (tryCascade ok (r :: rs)).success,
          (tryCascade ok (r :: rs)).errorSet, (tryCascade ok (r :: rs)).loading⟩ :
            CascadeResult).errorSet = (tryCascade ok (r :: rs)).errorSet from rfl]
        rw [ih]
        simp [hok]

theorem tryCascade_success_errorSet (ok : Nat → Bool) (l : List Nat) :
    ∀ m, (tryCascade ok l).success = some m → (tryCascade ok l).errorSet = false := by
  induction l with
  | nil => intro m h; simp [tryCascade] at h
  | cons a rest ih =>
    intro m h
    cases hok : ok a with
    | true => rw [tryCascade_cons_ok ok a rest hok]
    | false =>
      cases rest with
      | nil => rw [tryCascade_single_fail ok a hok] at h; simp at h
      | cons r rs =>
        rw [tryCascade_cons_fail ok a r rs hok] at h ⊢
        exact ih m h

theorem fallbacks_eq_cons_filter (m : Nat) :
    fallbacks m = m :: List.filter (fun w => decide (w < m)) [43200, 10080, 1440] := by
  by_cases h1 : 43200 < m
  · have h2 : 10080 < m := by omega
    have h3 : 1440 < m := by omega
    simp [fallbacks, List.filter_cons, h1, h2, h3]
  · by_cases h2 : 10080 < m
    · have h3 : 1440 < m := by omega
      simp [fallbacks, List.filter_cons, h1, h2, h3]
    · by_cases h3 : 1440 < m
      · simp [fallbacks, List.filter_cons, h1, h2, h3]
      · simp [fallbacks, List.filter_cons, h1, h2, h3]

theorem fallbacks_ne_nil (m : Nat) : fallbacks m ≠ [] := by
  simp [fallbacks]

theorem fallbacks_all_pos (m : Nat) (h : 1 ≤ m) : ∀ w ∈ fallbacks m, 1 ≤ w := by
  intro w hw
  rw [fallbacks_eq_cons_filter] at hw
  rcases List.mem_cons.mp hw with hw' | hw'
  · omega
  · have hmem := List.mem_of_mem_filter hw'
    rcases (by simpa using hmem : w = 43200 ∨ w = 10080 ∨ w = 1440) with h' | h' | h' <;>
      omega

/- ------------------------------------------------------------------ -/
/- Claim theorems: activity cascade                                    -/
/- ------------------------------------------------------------------ -/

theorem fallbacks_chain (m : Nat) :
    List.Chain' (fun a b => b < a) (fallbacks m) := by
  by_cases h1 : 43200 < m
  · have h2 : 10080 < m := by omega
    have h3 : 1440 < m := by omega
    simp [fallbacks, h1, h2, h3, List.chain'_cons, List.chain'_singleton]
  · by_cases h2 : 10080 < m
    · have h3 : 1440 < m := by omega
      simp [fallbacks, h1, h2, h3, List.chain'_cons, List.chain'_singleton]
    · by_cases h3 : 1440 < m
      · simp [fallbacks, h1, h2, h3, List.chain'_cons, List.chain'_singleton]
      · simp [fallbacks, h1, h2, h3, List.chain'_singleton]

/-- C2: for every selected period, the fallbacks list built in `refresh`
is strictly decreasing in minutes, and the retry loop attempts a prefix of
it, stopping at the first succeeding window (every earlier attempt failed,
nothing after the success is attempted) or, when no window succeeds, only
after every candidate has been tried. -/
theorem claim_C2 (sel : PeriodKey) (ok : Nat → Bool) :
    List.Chain' (fun a b => b < a) (fallbacks (refreshMinutes sel)) ∧
    (refreshCascade sel ok).attempts
      = (fallbacks (refreshMinutes sel)).take (refreshCascade sel ok).attempts.length ∧
    (∀ m, (refreshCascade sel ok).success = some m →
      ok m = true ∧ (refreshCascade sel ok).attempts.getLast? = some m ∧
      ∀ w ∈ (refreshCascade sel ok).attempts.dropLast, ok w = false) ∧
    ((refreshCascade sel ok).success = none →
      (refreshCascade sel ok).attempts = fallbacks (refreshMinutes sel) ∧
      ∀ w ∈ fallbacks (refreshMinutes sel), ok w = false) := by
  simp only [refreshCascade]
  refine ⟨?_, tryCascade_attempts_take ok _, tryCascade_success_spec ok _,
    tryCascade_none_spec ok _⟩
  exact fallbacks_chain _

/-- Witness for C2 at the one-year period with an oracle that succeeds
exactly at the 30-day window: the loop attempts `[525600, 43200]` and stops
on the success. -/
theorem claim_C2_witness :
    (refreshCascade PeriodKey.y1 (fun w => w == 43200)).success = some 43200 ∧
    ((fun w : Nat => w == 43200) 43200 = true ∧
      (refreshCascade PeriodKey.y1 (fun w => w == 43200)).attempts.getLast? = some 43200 ∧
      ∀ w ∈ (refreshCascade PeriodKey.y1 (fun w => w == 43200)).attempts.dropLast,
        (fun w : Nat => w == 43200) w = false) :=
  ⟨by decide,
   (claim_C2 PeriodKey.y1 (fun w => w == 43200)).2.2.1 43200 (by decide)⟩

/-- C3: for every selected period the cascade is the full sanitised window
followed by exactly the standard windows (30 d, 7 d, 24 h) strictly smaller
than it; `setError` runs exactly when every candidate fails, a success at
any stage leaves the error state clear, and `loading` always ends false. -/
theorem claim_C3 (sel : PeriodKey) (ok : Nat → Bool) :
    fallbacks (refreshMinutes sel)
      = refreshMinutes sel
          :: List.filter (fun w => decide (w < refreshMinutes sel)) [43200, 10080, 1440] ∧
    ((refreshCascade sel ok).errorSet = true ↔
      ∀ w ∈ fallbacks (refreshMinutes sel), ok w = false) ∧
    (∀ m, (refreshCascade sel ok).success = some m →
      (refreshCascade sel ok).errorSet = false) ∧
    (refreshCascade sel ok).loading = false := by
  refine ⟨fallbacks_eq_cons_filter _, ?_, ?_, ?_⟩
  · simp only [refreshCascade]
    rw [tryCascade_errorSet_iff]
    simp [fallbacks_ne_nil]
  · simpa only [refreshCascade] using tryCascade_success_errorSet ok _
  · simpa only [refreshCascade] using tryCascade_loading ok _

/-- Witness for C3 at the 24-hour period: with an always-failing oracle the
error state is set, with an always-succeeding oracle the first window
succeeds and the error state stays clear. -/
theorem claim_C3_witness :
    (∀ w ∈ fallbacks (refreshMinutes PeriodKey.h24), (fun _ : Nat => false) w = false) ∧
    (refreshCascade PeriodKey.h24 (fun _ => false)).errorSet = true ∧
    (refreshCascade PeriodKey.h24 (fun _ => true)).success = some 1440 ∧
    (refreshCascade PeriodKey.h24 (fun _ => true)).errorSet = false :=
  ⟨by decide,
   (claim_C3 PeriodKey.h24 (fun _ => false)).2.1.mpr (by decide),
   by decide,
   (claim_C3 PeriodKey.h24 (fun _ => true)).2.2.1 1440 (by decide)⟩

/-- C8: the first attempted window is `max 1 (selected period minutes)`,
every attempted window is at least one minute, the sanitised machine id is
a non-negative integer, and a non-finite or negative selected id is coerced
to 0, routing the call to `getRecentActivities`. -/
theorem claim_C8 (sel : PeriodKey) (j : JsNum) :
    (fallbacks (refreshMinutes sel)).head? = some (max 1 (minutesOf sel)) ∧
    (∀ w ∈ fallbacks (refreshMinutes sel), 1 ≤ w) ∧
    0 ≤ sanitizeMid j ∧
    ((jsIsFinite j = false ∨ jsNegative j = true) →
      sanitizeMid j = 0 ∧ ∀ m, callApi (sanitizeMid j) m = ApiCall.recent m 100) := by
  refine ⟨rfl, fallbacks_all_pos _ (Nat.le_max_left 1 _), ?_, ?_⟩
  · cases j with
    | nan => decide
    | posInf => decide
    | negInf => decide
    | fin q =>
      by_cases hq : q < 0
      · simp [sanitizeMid, jsIsFinite, jsNegative, hq]
      · simp only [sanitizeMid, jsIsFinite, jsNegative]
        simp [hq]
        omega
  · intro hj
    have hz : sanitizeMid j = 0 := by
      cases j with
      | nan => rfl
      | posInf => rfl
      | negInf => rfl
      | fin q =>
        rcases hj with hj | hj
        · simp [jsIsFinite] at hj
        · have hq : q < 0 := by simpa [jsNegative] using hj
          simp [sanitizeMid, jsIsFinite, jsNegative, hq]
    refine ⟨hz, ?_⟩
    intro mnts
    rw [hz]
    rfl

/-- Witness for C8: `NaN` as the selected machine id is coerced to 0 and
the call goes to the all-machines endpoint. -/
theorem claim_C8_witness :
    (jsIsFinite JsNum.nan = false ∨ jsNegative JsNum.nan = true) ∧
    sanitizeMid JsNum.nan = 0 ∧
    callApi (sanitizeMid JsNum.nan) 60 = ApiCall.recent 60 100 :=
  ⟨Or.inl rfl,
   ((claim_C8 PeriodKey.h1 JsNum.nan).2.2.2 (Or.inl rfl)).1,
   ((claim_C8 PeriodKey.h1 JsNum.nan).2.2.2 (Or.inl rfl)).2 60⟩

/- ------------------------------------------------------------------ -/
/- Claim theorems: machine filtering                                   -/
/- ------------------------------------------------------------------ -/

theorem statusMatches_filterOfStatus (s s' : MachineStatus) :
    statusMatches (filterOfStatus s) s' = true ↔ s' = s := by
  cases s <;> cases s' <;> simp [statusMatches, filterOfStatus]

theorem filterOfStatus_ne_all (s : MachineStatus) :
    filterOfStatus s ≠ StatusFilter.all := by
  cases s <;> simp [filterOfStatus]

/-- C4: the `'all'` filter returns the unfiltered list itself, and for each
status filter the filtered view is a sublist of the original (original
order, no duplication) containing exactly the machines of that status. -/
theorem claim_C4 (l : List Machine) (s : MachineStatus) :
    MachinesComponent.filtered StatusFilter.all l = l ∧
    List.Sublist (MachinesComponent.filtered (filterOfStatus s) l) l ∧
    ∀ m : Machine, m ∈ MachinesComponent.filtered (filterOfStatus s) l ↔
      (m ∈ l ∧ m.status = s) := by
  refine ⟨rfl, ?_, ?_⟩
  · rw [MachinesComponent.filtered, if_neg (filterOfStatus_ne_all s)]
    exact List.filter_sublist l
  · intro m
    rw [MachinesComponent.filtered, if_neg (filterOfStatus_ne_all s)]
    rw [List.mem_filter]
    simp [statusMatches_filterOfStatus]

/- ------------------------------------------------------------------ -/
/- Claim theorems: logout                                              -/
/- ------------------------------------------------------------------ -/

/-- C9: after `logout` the token is `null`, `isLoggedIn` is false,
`payload` and `role` are `null`, and a second `logout` leaves the state
unchanged. -/
theorem claim_C9 (st : AuthState) :
    AuthService.token (AuthService.logout st) = none ∧
    AuthService.isLoggedIn (AuthService.logout st) = false ∧
    AuthService.payload (AuthService.logout st) = none ∧
    AuthService.role (AuthService.logout st) = none ∧
    AuthService.logout (AuthService.logout st) = AuthService.logout st := by
  refine ⟨rfl, rfl, rfl, rfl, ?_⟩
  simp [AuthService.logout, List.filter_filter]

/- ------------------------------------------------------------------ -/
/- Supporting lemmas about keyed updates                               -/
/- ------------------------------------------------------------------ -/

theorem assocGet_assocSet_self (l : List (String × String)) (k v : String) :
    assocGet (assocSet l k v) k = some v := by
  induction l with
  | nil => simp [assocSet, assocGet]
  | cons kv rest ih =>
    by_cases h : kv.1 == k
    · simp [assocSet, h, assocGet]
    · simp only [assocSet, h, if_false, Bool.false_eq_true]
      simpa [assocGet, List.find?, h] using ih

theorem assocGet_assocSet_ne (l : List (String × String)) (k v k' : String)
    (hne : k' ≠ k) :
    assocGet (assocSet l k v) k' = assocGet l k' := by
  have hkk : (k == k') = false := by
    simp [hne.symm]
  induction l with
  | nil => simp [assocSet, assocGet, hkk]
  | cons kv rest ih =>
    by_cases h : kv.1 == k
    · have hkv : kv.1 = k := by simpa using h
      have hkv' : (kv.1 == k') = false := by simp [hkv, hne.symm]
      simp only [assocSet, h, if_true]
      simp only [assocGet, List.find?, hkk, hkv']
      exact ih
    · simp only [assocSet, h, if_false, Bool.false_eq_true]
      by_cases h2 : kv.1 == k'
      · simp [assocGet, List.find?, h2]
      · simp only [assocGet, List.find?, h2]
        exact ih

/- ------------------------------------------------------------------ -/
/- Claim theorems: interceptor and token persistence                   -/
/- ------------------------------------------------------------------ -/

/-- C6: with a falsy token the interceptor forwards the request unchanged;
with a stored (truthy) token it forwards a clone whose URL, method, body
and unrelated headers are unchanged and whose `Authorization` header is
`Bearer <token>`; and the token `login` persists is what a freshly
initialised service reads back from storage. -/
theorem claim_C6 (token : Option String) (req : HttpRequest) (st : AuthState)
    (t : String) :
    (jsTruthyStr token = false → authInterceptor token req = req) ∧
    (∀ tk, token = some tk → tk ≠ "" →
      (authInterceptor token req).url = req.url ∧
      (authInterceptor token req).method = req.method ∧
      (authInterceptor token req).body = req.body ∧
      assocGet (authInterceptor token req).headers "Authorization"
        = some ("Bearer " ++ tk) ∧
      ∀ k, k ≠ "Authorization" →
        assocGet (authInterceptor token req).headers k = assocGet req.headers k) ∧
    AuthService.token (AuthService.init (AuthService.login st t).store) = some t := by
  refine ⟨?_, ?_, ?_⟩
  · intro hf
    cases token with
    | none => rfl
    | some s =>
      have hs : (s == "") = true := by
        simpa [jsTruthyStr] using hf
      simp [authInterceptor, hs]
  · rintro tk rfl hne
    have hs : (tk == "") = false := by simp [hne]
    have hai : authInterceptor (some tk) req
        = { req with headers := assocSet req.headers "Authorization" ("Bearer " ++ tk) } := by
      simp [authInterceptor, hs]
    rw [hai]
    exact ⟨rfl, rfl, rfl, assocGet_assocSet_self _ _ _,
      fun k hk => assocGet_assocSet_ne _ _ _ _ hk⟩
  · exact assocGet_assocSet_self _ _ _

/-- Witness for C6: a concrete request with an `Accept` header and the
token `tok123`: the clone carries `Authorization: Bearer tok123`, keeps the
`Accept` header, and a re-initialised service still reads `tok123`. -/
theorem claim_C6_witness :
    ("tok123" : String) ≠ "" ∧
    assocGet (authInterceptor (some "tok123")
        ⟨"/machines", "GET", none, [("Accept", "application/json")]⟩).headers
        "Authorization" = some ("Bearer " ++ "tok123") ∧
    assocGet (authInterceptor (some "tok123")
        ⟨"/machines", "GET", none, [("Accept", "application/json")]⟩).headers
        "Accept" = assocGet [("Accept", "application/json")] "Accept" ∧
    AuthService.token
        (AuthService.init (AuthService.login ⟨[], none⟩ "tok123").store)
      = some "tok123" :=
  ⟨by decide,
   ((claim_C6 (some "tok123")
      ⟨"/machines", "GET", none, [("Accept", "application/json")]⟩
      ⟨[], none⟩ "tok123").2.1 "tok123" rfl (by decide)).2.2.2.1,
   ((claim_C6 (some "tok123")
      ⟨"/machines", "GET", none, [("Accept", "application/json")]⟩
      ⟨[], none⟩ "tok123").2.1 "tok123" rfl (by decide)).2.2.2.2 "Accept" (by decide),
   (claim_C6 (some "tok123")
      ⟨"/machines", "GET", none, [("Accept", "application/json")]⟩
      ⟨[], none⟩ "tok123").2.2⟩

/- ------------------------------------------------------------------ -/
/- Claim theorems: form submission guards                              -/
/- ------------------------------------------------------------------ -/

/-- C5 counterexample: the admin user-creation submit handler issues the
`createUser` request even with both required fields (email, password)
empty — it neither blocks nor sets an error beforehand, refuting the claim
that every CRUD form blocks on absent required fields. -/
theorem claim_C5_counterexample :
    AdminComponent.add "" "" Role.operator
      = SubmitAction.request ⟨"", "", Role.operator⟩ ∧
    (AdminComponent.add "" "" Role.operator).isBlocked = false :=
  ⟨rfl, rfl⟩

/-- C5 amended: machine creation is blocked (no request, error set) when
`name` or `code` is empty and also when logged out, and goes through
otherwise; event creation is blocked exactly when no machine is selected;
but the admin user-creation handler performs the request unconditionally,
with no required-field validation. -/
theorem claim_C5 (loggedIn : Bool) (form : MachineDraft) (p : EventDraft)
    (e pw : String) (r : Role) :
    ((form.name = "" ∨ form.code = "") →
      (MachinesComponent.create loggedIn form).isBlocked = true) ∧
    (loggedIn = false →
      MachinesComponent.create loggedIn form
        = SubmitAction.blocked "Connecte-toi pour créer.") ∧
    (loggedIn = true → form.name ≠ "" → form.code ≠ "" →
      MachinesComponent.create loggedIn form = SubmitAction.request form) ∧
    (p.machine_id = none →
      EventNewComponent.submit p = SubmitAction.blocked "Sélectionne une machine.") ∧
    (AdminComponent.add e pw r).isBlocked = false := by
  refine ⟨?_, ?_, ?_, ?_, rfl⟩
  · intro hemp
    cases loggedIn with
    | false => rfl
    | true =>
      have hor : (form.name == "" || form.code == "") = true := by
        rcases hemp with h | h <;> simp [h]
      simp [MachinesComponent.create, hor, SubmitAction.isBlocked]
  · intro h; subst h; rfl
  · intro h hn hc
    subst h
    have h1 : (form.name == "") = false := by simp [hn]
    have h2 : (form.code == "") = false := by simp [hc]
    simp [MachinesComponent.create, h1, h2]
  · intro h
    simp [EventNewComponent.submit, h]

/-- Witness for C5: the machine form with an empty name is blocked, the
event form with no machine selected is blocked, and the admin form with
empty email and password still issues its request. -/
theorem claim_C5_witness :
    (("" : String) = "" ∨ ("M-01" : String) = "") ∧
    (MachinesComponent.create true ⟨"", "M-01", MachineStatus.setup, 0⟩).isBlocked
      = true ∧
    ({ machine_id := none, work_order_id := none, event_type := EventType.good,
        qty := 1, notes := none, happened_at := none } : EventDraft).machine_id
      = none ∧
    EventNewComponent.submit
        { machine_id := none, work_order_id := none, event_type := EventType.good,
          qty := 1, notes := none, happened_at := none }
      = SubmitAction.blocked "Sélectionne une machine." ∧
    (AdminComponent.add "" "" Role.chef).isBlocked = false :=
  ⟨Or.inl rfl,
   (claim_C5 true ⟨"", "M-01", MachineStatus.setup, 0⟩
      { machine_id := none, work_order_id := none, event_type := EventType.good,
        qty := 1, notes := none, happened_at := none } "" "" Role.chef).1
     (Or.inl rfl),
   rfl,
   (claim_C5 true ⟨"", "M-01", MachineStatus.setup, 0⟩
      { machine_id := none, work_order_id := none, event_type := EventType.good,
        qty := 1, notes := none, happened_at := none } "" "" Role.chef).2.2.2.1 rfl,
   (claim_C5 true ⟨"", "M-01", MachineStatus.setup, 0⟩
      { machine_id := none, work_order_id := none, event_type := EventType.good,
        qty := 1, notes := none, happened_at := none } "" "" Role.chef).2.2.2.2⟩

/- ------------------------------------------------------------------ -/
/- Claim theorems: request handlers                                    -/
/- ------------------------------------------------------------------ -/

/-- C7 counterexample: the machines refresh handler stores the fixed
generic message `'Erreur chargement machines'` even when the structured
error body carries `detail = "boom"`, so its failure message is not derived
from the detail field when present. -/
theorem claim_C7_counterexample :
    (machinesRefresh ⟨none, none, false⟩
        (Except.error ⟨some ⟨some "boom"⟩⟩)).error
      = some "Erreur chargement machines" ∧
    (⟨some ⟨some "boom"⟩⟩ : HttpErr).error.bind ErrBody.detail = some "boom" ∧
    (machinesRefresh ⟨none, none, false⟩
        (Except.error ⟨some ⟨some "boom"⟩⟩)).error
      ≠ some (jsOrStr ((⟨some ⟨some "boom"⟩⟩ : HttpErr).error.bind ErrBody.detail)
          "Erreur chargement machines") :=
  ⟨rfl, rfl, by decide⟩

/-- C7 amended: each handler distinguishes success (store payload, error
stays cleared) from failure (store a user-facing message) and ends with
`loading = false` in both arms; the dashboard handler derives its failure
message from the error body's `detail` when truthy (generic otherwise),
while the machines handler always stores its fixed generic message,
ignoring the error body. -/
theorem claim_C7 (st : ReqState Nat) (r : Except HttpErr Nat)
    (stm : ReqState (List Machine)) (rm : Except HttpErr (Option (List Machine))) :
    (dashboardRefresh st r).loading = false ∧
    (machinesRefresh stm rm).loading = false ∧
    (∀ d, r = Except.ok d → dashboardRefresh st r = ⟨some d, none, false⟩) ∧
    (∀ e, r = Except.error e →
      (dashboardRefresh st r).error
          = some (jsOrStr (e.error.bind ErrBody.detail)
              "Erreur lors du chargement du dashboard") ∧
      (dashboardRefresh st r).data = st.data) ∧
    (∀ md, rm = Except.ok md →
      machinesRefresh stm rm = ⟨some (md.getD []), none, false⟩) ∧
    (∀ e, rm = Except.error e →
      (machinesRefresh stm rm).error = some "Erreur chargement machines" ∧
      (machinesRefresh stm rm).data = stm.data) := by
  refine ⟨?_, ?_, ?_, ?_, ?_, ?_⟩
  · cases r <;> rfl
  · cases rm <;> rfl
  · rintro d rfl; rfl
  · rintro e rfl; exact ⟨rfl, rfl⟩
  · rintro md rfl; rfl
  · rintro e rfl; exact ⟨rfl, rfl⟩

/-- Witness for C7: a successful dashboard load stores the payload with the
error cleared, a failed one with `detail = "boom"` stores `boom`, and a
failed machines load stores the fixed generic message. -/
theorem claim_C7_witness :
    (Except.ok 5 : Except HttpErr Nat) = Except.ok 5 ∧
    dashboardRefresh (⟨none, some "old", true⟩ : ReqState Nat) (Except.ok 5)
      = ⟨some 5, none, false⟩ ∧
    (dashboardRefresh (⟨none, none, false⟩ : ReqState Nat)
        (Except.error ⟨some ⟨some "boom"⟩⟩)).error
      = some (jsOrStr ((⟨some ⟨some "boom"⟩⟩ : HttpErr).error.bind ErrBody.detail)
          "Erreur lors du chargement du dashboard") ∧
    jsOrStr ((⟨some ⟨some "boom"⟩⟩ : HttpErr).error.bind ErrBody.detail)
        "Erreur lors du chargement du dashboard" = "boom" ∧
    (machinesRefresh ⟨none, none, false⟩ (Except.error ⟨none⟩)).error
      = some "Erreur chargement machines" :=
  ⟨rfl,
   (claim_C7 ⟨none, some "old", true⟩ (Except.ok 5) ⟨none, none, false⟩
      (Except.error ⟨none⟩)).2.2.1 5 rfl,
   ((claim_C7 ⟨none, none, false⟩ (Except.error ⟨some ⟨some "boom"⟩⟩)
      ⟨none, none, false⟩ (Except.error ⟨none⟩)).2.2.2.1 ⟨some ⟨some "boom"⟩⟩ rfl).1,
   rfl,
   ((claim_C7 ⟨none, none, false⟩ (Except.error ⟨some ⟨some "boom"⟩⟩)
      ⟨none, none, false⟩ (Except.error ⟨none⟩)).2.2.2.2.2 ⟨none⟩ rfl).1⟩

/- ------------------------------------------------------------------ -/
/- Claim theorems: malformed JWT handling                              -/
/- ------------------------------------------------------------------ -/

/-- C1 counterexample: for the stored malformed token `"not-a-jwt"` both
decoders return `null` (payload is `null`), yet `isLoggedIn()` is `true`,
not `false` — `isLoggedIn` tests only token presence (`!!token`), not
decodability, refuting the claim that the state is unauthenticated. -/
theorem claim_C1_counterexample :
    decodeJwt (some "not-a-jwt") = none ∧
    decodeJwtApi (some "not-a-jwt") = none ∧
    AuthService.payload ⟨[], some "not-a-jwt"⟩ = none ∧
    AuthService.isLoggedIn ⟨[], some "not-a-jwt"⟩ = true :=
  ⟨rfl, rfl, rfl, rfl⟩

/-- C1 amended: for every stored token string on which decoding fails (in
either service), the decode yields `null` rather than a crash — every
throwing stage is caught — and `payload()` and `role()` are `null`; but
`isLoggedIn()` reflects only token truthiness, so it is `true` for any
non-empty stored string, malformed or not, and `false` only for an empty
one. -/
theorem claim_C1 (store : List (String × String)) (t : String) :
    (decodeJwt (some t) = none →
      AuthService.payload ⟨store, some t⟩ = none ∧
      AuthService.role ⟨store, some t⟩ = none) ∧
    (decodeJwtApi (some t) = none →
      ApiAuthService.payload ⟨store, some t⟩ = none ∧
      ApiAuthService.role ⟨store, some t⟩ = none) ∧
    AuthService.isLoggedIn ⟨store, some t⟩ = !(t == "") ∧
    ApiAuthService.isLoggedIn ⟨store, some t⟩ = !(t == "") := by
  refine ⟨?_, ?_, rfl, rfl⟩
  · intro h
    refine ⟨h, ?_⟩
    simp [AuthService.role, AuthService.payload, h, jsRole]
  · intro h
    refine ⟨h, ?_⟩
    simp [ApiAuthService.role, ApiAuthService.payload, h, jsRole]

/-- Witness for C1 at the malformed stored token `"not-a-jwt"` (no dot, so
no payload part): both decoders yield `null`, payload and role are `null`
in both services, and `isLoggedIn` equals the truthiness of the token. -/
theorem claim_C1_witness :
    decodeJwt (some "not-a-jwt") = none ∧
    decodeJwtApi (some "not-a-jwt") = none ∧
    AuthService.payload ⟨[], some "not-a-jwt"⟩ = none ∧
    AuthService.role ⟨[], some "not-a-jwt"⟩ = none ∧
    ApiAuthService.payload ⟨[], some "not-a-jwt"⟩ = none ∧
    ApiAuthService.role ⟨[], some "not-a-jwt"⟩ = none ∧
    AuthService.isLoggedIn ⟨[], some "not-a-jwt"⟩
      = !(("not-a-jwt" : String) == "") :=
  ⟨rfl, rfl,
   ((claim_C1 [] "not-a-jwt").1 rfl).1,
   ((claim_C1 [] "not-a-jwt").1 rfl).2,
   ((claim_C1 [] "not-a-jwt").2.1 rfl).1,
   ((claim_C1 [] "not-a-jwt").2.1 rfl).2,
   (claim_C1 [] "not-a-jwt").2.2.1⟩
